import Mathlib

/-!
Shallow embedding of the Rustdrynth CLI client (src/src/main.rs) and proofs
about its facet builder, search handler, dependencies handler, download
handler and main dispatch.  Rust `String`/`&str` values are modelled as
`List Char`; fallible operations return `Except`; panicking operations
(`Option::unwrap`, `Result::unwrap`) are modelled by explicit outcome
constructors.
-/

namespace Rustdrynth

/-- Rust strings are modelled as lists of characters. -/
abbrev RStr := List Char

/-- Embeds `remove_last_char` (main.rs lines 270-279): `rfind` locates the
last occurrence of `c` and the string is rebuilt without it; a string with
no occurrence is returned unchanged. -/
def remove_last_char (s : RStr) (c : Char) : RStr :=
  match s with
  | [] => []
  | x :: xs =>
      if c ∈ xs then x :: remove_last_char xs c
      else if x = c then xs
      else x :: xs

/-- The initial facet accumulator of `adapt_to_facet` (main.rs line 126). -/
def facet_init : RStr := ("&facets=[[\"project_type=mod\"],").toList

/-- The `facet_1` opener of `adapt_to_facet` (main.rs line 127). -/
def facet_1 : RStr := ("[\"").toList

/-- The `facet_2` closer of `adapt_to_facet` (main.rs line 128). -/
def facet_2 : RStr := ("\"],").toList

/-- Embeds `adapt_to_facet` (main.rs lines 125-141): append one clause per
category, then a versions clause when the game version is non-empty, then
`facet_2`, then strip the last `,`, the last `"` and the last `,` again. -/
def adapt_to_facet (categories : List RStr) (game_version : RStr) : RStr :=
  let withCats := categories.foldl
    (fun facet element => facet ++ (facet_1 ++ ("categories:").toList ++ element ++ facet_2))
    facet_init
  let withVersion :=
    if game_version.isEmpty then withCats
    else withCats ++ (facet_1 ++ ("versions:").toList ++ game_version ++ facet_2)
  remove_last_char (remove_last_char (remove_last_char (withVersion ++ facet_2) ',') '"') ','

/-- One category clause as appended by the loop of `adapt_to_facet`. -/
def catClause (element : RStr) : RStr :=
  facet_1 ++ ("categories:").toList ++ element ++ facet_2

/-- Bracket depth tracker: `brDepth n s` walks `s` starting from nesting
depth `n`, returning `none` on a closing bracket at depth 0 and otherwise
the final depth. -/
def brDepth (n : Nat) : RStr → Option Nat
  | [] => some n
  | c :: rest =>
      if c = '[' then brDepth (n + 1) rest
      else if c = ']' then
        match n with
        | 0 => none
        | m + 1 => brDepth m rest
      else brDepth n rest

/-- A string has balanced brackets: starting at depth 0 it never closes an
unopened bracket and ends at depth 0. -/
def brBalanced (s : RStr) : Prop := brDepth 0 s = some 0

/-- A string free of square brackets. -/
def bracketFree (s : RStr) : Prop := ∀ c ∈ s, c ≠ '[' ∧ c ≠ ']'

instance (s : RStr) : Decidable (brBalanced s) :=
  inferInstanceAs (Decidable (brDepth 0 s = some 0))

instance (s : RStr) : Decidable (bracketFree s) :=
  inferInstanceAs (Decidable (∀ c ∈ s, c ≠ '[' ∧ c ≠ ']'))

/-- `rfind` looks at the rightmost occurrence: removing the last occurrence
of `c` from `l₁ ++ l₂` only touches `l₂` whenever `c` occurs in `l₂`. -/
theorem remove_last_char_append_left (l₁ l₂ : RStr) (c : Char) (h : c ∈ l₂) :
    remove_last_char (l₁ ++ l₂) c = l₁ ++ remove_last_char l₂ c := by
  induction l₁ with
  | nil => rfl
  | cons x xs ih =>
      have hmem : c ∈ xs ++ l₂ := List.mem_append.mpr (Or.inr h)
      simp only [List.cons_append, remove_last_char, List.append_eq]
      rw [if_pos hmem, ih]

/-- The three strip steps of `adapt_to_facet` applied to a string ending in
two copies of `facet_2` turn that tail into a closing `"]]`, independently
of the prefix. -/
theorem strip_chain (Y : RStr) :
    remove_last_char (remove_last_char (remove_last_char
        (Y ++ (facet_2 ++ facet_2)) ',') '"') ','
      = Y ++ ['"', ']', ']'] := by
  rw [remove_last_char_append_left Y (facet_2 ++ facet_2) ',' (by decide)]
  have h1 : remove_last_char (facet_2 ++ facet_2) ',' = ['"', ']', ',', '"', ']'] := by decide
  rw [h1, remove_last_char_append_left Y (['"', ']', ',', '"', ']']) '"' (by decide)]
  have h2 : remove_last_char (['"', ']', ',', '"', ']']) '"' = ['"', ']', ',', ']'] := by decide
  rw [h2, remove_last_char_append_left Y (['"', ']', ',', ']']) ',' (by decide)]
  have h3 : remove_last_char (['"', ']', ',', ']']) ',' = ['"', ']', ']'] := by decide
  rw [h3]

/-- The category loop of `adapt_to_facet` is the concatenation of the
individual category clauses. -/
theorem foldl_catClause (l : List RStr) (a : RStr) :
    l.foldl (fun facet element =>
        facet ++ (facet_1 ++ ("categories:").toList ++ element ++ facet_2)) a
      = a ++ (l.map catClause).flatten := by
  induction l generalizing a with
  | nil => simp
  | cons e l ih =>
      simp only [List.foldl_cons]
      rw [ih]
      simp [catClause, List.append_assoc]

/-- Closed form of `adapt_to_facet` for a non-empty game version: one clause
per category followed by a versions clause, closed by `"]]`. -/
theorem adapt_to_facet_closed_ver (cats : List RStr) (gv : RStr) (h : gv ≠ []) :
    adapt_to_facet cats gv
      = facet_init ++ (cats.map catClause).flatten
          ++ (facet_1 ++ ("versions:").toList ++ gv ++ ['"', ']', ']']) := by
  have hg : gv.isEmpty = false := by
    cases gv with
    | nil => exact absurd rfl h
    | cons c l => rfl
  simp only [adapt_to_facet, hg, Bool.false_eq_true, if_false, foldl_catClause]
  have hY : (facet_init ++ (cats.map catClause).flatten
        ++ (facet_1 ++ ("versions:").toList ++ gv ++ facet_2)) ++ facet_2
      = (facet_init ++ (cats.map catClause).flatten
          ++ (facet_1 ++ ("versions:").toList ++ gv)) ++ (facet_2 ++ facet_2) := by
    simp [List.append_assoc]
  rw [hY, strip_chain]
  simp [List.append_assoc]

/-- Closed form of `adapt_to_facet` for an empty game version and at least
one category: the clauses of the initial categories followed by the last
category's clause, closed by `"]]`. -/
theorem adapt_to_facet_closed_nover (cs : List RStr) (l : RStr) :
    adapt_to_facet (cs ++ [l]) []
      = facet_init ++ (cs.map catClause).flatten
          ++ (facet_1 ++ ("categories:").toList ++ l ++ ['"', ']', ']']) := by
  simp only [adapt_to_facet, List.isEmpty_nil, if_true, foldl_catClause]
  have hY : (facet_init ++ ((cs ++ [l]).map catClause).flatten) ++ facet_2
      = (facet_init ++ (cs.map catClause).flatten
          ++ (facet_1 ++ ("categories:").toList ++ l)) ++ (facet_2 ++ facet_2) := by
    simp [catClause, List.append_assoc]
  rw [hY, strip_chain]
  simp [List.append_assoc]

/-- Bracket depth distributes over concatenation. -/
theorem brDepth_append (l r : RStr) :
    ∀ n, brDepth n (l ++ r) = (brDepth n l).bind (fun m => brDepth m r) := by
  induction l with
  | nil => intro n; rfl
  | cons c l ih =>
      intro n
      by_cases h1 : c = '['
      · simp only [List.cons_append, brDepth, if_pos h1, List.append_eq, ih]
      · by_cases h2 : c = ']'
        · cases n with
          | zero => simp only [List.cons_append, brDepth, if_neg h1, if_pos h2, Option.bind]
          | succ m =>
              simp only [List.cons_append, brDepth, if_neg h1, if_pos h2, List.append_eq, ih]
        · simp only [List.cons_append, brDepth, if_neg h1, if_neg h2, List.append_eq, ih]

/-- A bracket-free string leaves the bracket depth unchanged. -/
theorem brDepth_bracketFree (w : RStr) (hw : bracketFree w) :
    ∀ n, brDepth n w = some n := by
  induction w with
  | nil => intro n; rfl
  | cons c l ih =>
      intro n
      have hc := hw c (by simp)
      have hl : bracketFree l := fun x hx => hw x (by simp [hx])
      simp only [brDepth, if_neg hc.1, if_neg hc.2, ih hl]

/-- A category clause keeps the bracket depth at 1. -/
theorem brDepth_catClause (e : RStr) (he : bracketFree e) :
    brDepth 1 (catClause e) = some 1 := by
  have h1 : catClause e = facet_1 ++ (("categories:").toList ++ (e ++ facet_2)) := by
    simp [catClause, List.append_assoc]
  have hf1 : brDepth 1 facet_1 = some 2 := by decide
  have hcat : brDepth 2 (("categories:").toList) = some 2 := by decide
  have hf2 : brDepth 2 facet_2 = some 1 := by decide
  rw [h1, brDepth_append, hf1]
  simp only [Option.some_bind]
  rw [brDepth_append, hcat]
  simp only [Option.some_bind]
  rw [brDepth_append, brDepth_bracketFree e he 2]
  simp only [Option.some_bind, hf2]

/-- A flattened list of category clauses keeps the bracket depth at 1. -/
theorem brDepth_flatten_catClauses (cats : List RStr)
    (h : ∀ c ∈ cats, bracketFree c) :
    brDepth 1 ((cats.map catClause).flatten) = some 1 := by
  induction cats with
  | nil => rfl
  | cons e l ih =>
      have he : bracketFree e := h e (by simp)
      have hl : ∀ c ∈ l, bracketFree c := fun c hc => h c (by simp [hc])
      simp only [List.map_cons, List.flatten_cons, brDepth_append,
        brDepth_catClause e he, Option.some_bind, ih hl]

/-- A terminal clause `["<body>"]]` takes the bracket depth from 1 to 0. -/
theorem brDepth_final_clause (pre body : RStr) (hp : bracketFree pre)
    (hb : bracketFree body) :
    brDepth 1 (facet_1 ++ pre ++ body ++ ['"', ']', ']']) = some 0 := by
  have h1 : facet_1 ++ pre ++ body ++ ['"', ']', ']']
      = facet_1 ++ (pre ++ (body ++ ['"', ']', ']'])) := by
    simp [List.append_assoc]
  have hf1 : brDepth 1 facet_1 = some 2 := by decide
  have hend : brDepth 2 (['"', ']', ']']) = some 0 := by decide
  rw [h1, brDepth_append, hf1]
  simp only [Option.some_bind]
  rw [brDepth_append, brDepth_bracketFree pre hp 2]
  simp only [Option.some_bind]
  rw [brDepth_append, brDepth_bracketFree body hb 2]
  simp only [Option.some_bind, hend]

/-- C1: for categories `["optimization"]` and version `"1.20.1"`,
`adapt_to_facet` yields exactly
`&facets=[["project_type=mod"],["categories:optimization"],["versions:1.20.1"]]`,
which contains the `["categories:optimization"]` and `["versions:1.20.1"]`
clauses as siblings with no trailing comma or quote before the final closing
bracket; and for every non-empty list of bracket-free category strings and
every bracket-free game-version string (empty or not), the output's bracket
structure is balanced. -/
theorem C1_facet_structure :
    adapt_to_facet [("optimization").toList] (("1.20.1").toList)
        = ("&facets=[[\"project_type=mod\"],[\"categories:optimization\"],[\"versions:1.20.1\"]]").toList
    ∧ ∀ (cats : List RStr) (gv : RStr), cats ≠ [] →
        (∀ c ∈ cats, bracketFree c) → bracketFree gv →
        brBalanced (adapt_to_facet cats gv) := by
  refine ⟨by decide, ?_⟩
  intro cats gv hne hcats hgv
  have hinit : brDepth 0 facet_init = some 1 := by decide
  by_cases hgve : gv = []
  · obtain ⟨cs, l, rfl⟩ := (List.eq_nil_or_concat cats).resolve_left hne
    subst hgve
    simp only [List.concat_eq_append] at hcats ⊢
    rw [adapt_to_facet_closed_nover cs l]
    have hcs : ∀ c ∈ cs, bracketFree c := fun c hc => hcats c (by simp [hc])
    have hl : bracketFree l := hcats l (by simp)
    unfold brBalanced
    rw [List.append_assoc, brDepth_append, hinit]
    simp only [Option.some_bind]
    rw [brDepth_append, brDepth_flatten_catClauses cs hcs]
    simp only [Option.some_bind]
    exact brDepth_final_clause (("categories:").toList) l (by decide) hl
  · rw [adapt_to_facet_closed_ver cats gv hgve]
    unfold brBalanced
    rw [List.append_assoc, brDepth_append, hinit]
    simp only [Option.some_bind]
    rw [brDepth_append, brDepth_flatten_catClauses cats hcats]
    simp only [Option.some_bind]
    exact brDepth_final_clause (("versions:").toList) gv (by decide) hgv

/-- Witness for C1: the balance statement applied at the concrete example
input. -/
theorem C1_facet_structure_witness :
    brBalanced (adapt_to_facet [("optimization").toList] (("1.20.1").toList)) :=
  C1_facet_structure.2 [("optimization").toList] (("1.20.1").toList)
    (by decide) (by decide) (by decide)

/-- Models Rust `str::trim`: whitespace removed from both ends. -/
def trim_ws (s : RStr) : RStr :=
  ((s.dropWhile Char.isWhitespace).reverse.dropWhile Char.isWhitespace).reverse

/-- Embeds the facet computation of `search_mods` (main.rs lines 144-152):
the facet builder runs only when the category list is non-empty, otherwise
the facet is the empty string. -/
def search_facet (categories : List RStr) (game_version : RStr) : RStr :=
  if categories.isEmpty then [] else adapt_to_facet categories game_version

/-- The search endpoint prefix used by `search_mods` (main.rs line 153). -/
def search_base : RStr := ("https://api.modrinth.com/v2/search?query=").toList

/-- Embeds the URL construction of `search_mods` (main.rs line 153):
base, trimmed query, then the facet fragment. -/
def search_link (query game_version : RStr) (categories : List RStr) : RStr :=
  search_base ++ trim_ws query ++ search_facet categories game_version

/-- A search hit as decoded by `search_mods` (main.rs lines 61-66). -/
structure Hit where
  slug : RStr
  title : RStr
  description : RStr

/-- The two lines printed per hit by `search_mods` (main.rs lines 166-169). -/
def render_hit (h : Hit) : List RStr :=
  [('"' :: h.title) ++ ('"' :: (" : ").toList) ++ h.slug,
   h.description ++ ['\n']]

/-- The error results `search_mods` can return after receiving a response
body (main.rs lines 156-170). -/
inductive SearchErr where
  | decode : RStr → SearchErr
  | noMatchingGameFiles : SearchErr

/-- Embeds `search_mods` after the response body has been obtained
(main.rs lines 156-171): on decode failure print a message and return the
decode error; on success print every hit and fall through to the final
`Err(NotFound)`. Result: (printed lines, returned result). -/
def search_mods_after_decode (r : Except RStr (List Hit)) :
    List RStr × Except SearchErr Unit :=
  match r with
  | Except.error e => ([("Couldn't find any mods matching the query").toList], Except.error (SearchErr.decode e))
  | Except.ok hits => ((hits.map render_hit).flatten, Except.error SearchErr.noMatchingGameFiles)

/-- C2: with an empty category list the facet fragment used by the Search
handler is the empty string, for every game version, and the search URL is
exactly the base plus the trimmed query — no facet filter and in particular
no versions clause is appended. -/
theorem C2_empty_categories_empty_facet :
    ∀ (gv q : RStr),
      search_facet [] gv = []
      ∧ search_link q gv [] = search_base ++ trim_ws q := by
  intro gv q
  constructor
  · rfl
  · simp [search_link, search_facet]

/-- C3: whenever the response body decodes into a hit list, `search_mods`
prints the two lines of every hit and returns the `Err(NotFound)` result:
no path returns success once hits have been printed. -/
theorem C3_search_errors_after_printing (hits : List Hit) :
    search_mods_after_decode (Except.ok hits)
      = ((hits.map render_hit).flatten,
         Except.error SearchErr.noMatchingGameFiles) := rfl

/-- A project dependency as decoded by `project_dependencies`
(main.rs lines 73-77). -/
structure ProjectDependency where
  project_id : RStr
  dependency_type : RStr

/-- A project version as decoded by `project_dependencies`
(main.rs lines 68-71). -/
structure ProjectVersion where
  dependencies : List ProjectDependency

/-- A project-detail response as decoded by `get_project`
(main.rs lines 52-59). -/
structure ProjectResponse where
  body : RStr
  categories : List RStr
  title : RStr
  project_type : RStr
  slug : RStr

/-- The error results `project_dependencies` can return
(main.rs lines 188, 193). -/
inductive DepErr where
  | decode : RStr → DepErr
  | noDependencies : DepErr

/-- How an invocation of `project_dependencies` can end: a panic (from
`unwrap`), an error return, or the final `Ok(())`. -/
inductive DepOutcome where
  | panicked : RStr → DepOutcome
  | errored : DepErr → DepOutcome
  | succeeded : DepOutcome

/-- The message of `Option::unwrap` on `None`. -/
def unwrap_none_msg : RStr := ("called Option::unwrap() on a None value").toList

/-- The message of `Result::unwrap` on `Err`. -/
def unwrap_err_msg : RStr := ("called Result::unwrap() on an Err value").toList

/-- The dependency line printed by `project_dependencies`
(main.rs line 184). -/
def render_dependency (d : ProjectDependency) (p : ProjectResponse) : RStr :=
  d.dependency_type ++ (": ").toList ++ ('"' :: p.title) ++ (("\" - ").toList) ++ p.slug

/-- Embeds the dependency loop of `project_dependencies` (main.rs lines
182-185): each dependency triggers a `get_project` lookup whose result is
`unwrap`ped — an `Err` lookup panics. Result: (project ids looked up,
printed lines, outcome). -/
def run_dependency_loop (lookup : RStr → Except RStr ProjectResponse) :
    List ProjectDependency → List RStr × List RStr × DepOutcome
  | [] => ([], [], DepOutcome.succeeded)
  | d :: rest =>
      match lookup d.project_id with
      | Except.error _ =>
          ([d.project_id], [("Couldn't get the project").toList],
           DepOutcome.panicked unwrap_err_msg)
      | Except.ok p =>
          let r := run_dependency_loop lookup rest
          (d.project_id :: r.1, render_dependency d p :: r.2.1, r.2.2)

/-- Embeds `project_dependencies` after the response body has been decoded
(main.rs lines 178-196): `prj_versions.first().unwrap()` panics on an empty
list; an empty dependency list yields the distinct `NotFound` error;
otherwise the dependency loop runs and the handler ends with `Ok(())`.
Result: (project ids looked up, printed lines, outcome). -/
def project_dependencies_after_decode
    (lookup : RStr → Except RStr ProjectResponse)
    (r : Except RStr (List ProjectVersion)) :
    List RStr × List RStr × DepOutcome :=
  match r with
  | Except.error e => ([], [e], DepOutcome.errored (DepErr.decode e))
  | Except.ok prj_versions =>
      match prj_versions with
      | [] => ([], [], DepOutcome.panicked unwrap_none_msg)
      | first_prj_v :: _ =>
          if first_prj_v.dependencies.isEmpty then
            ([], [("No dependencies found on this project's version").toList],
             DepOutcome.errored DepErr.noDependencies)
          else
            run_dependency_loop lookup first_prj_v.dependencies

/-- C4: when the version list decodes to zero elements, the Dependencies
handler panics on `first().unwrap()` instead of returning an error value,
whatever the project-lookup behaviour. -/
theorem C4_empty_version_list_panics :
    ∀ lookup : RStr → Except RStr ProjectResponse,
      project_dependencies_after_decode lookup (Except.ok [])
        = ([], [], DepOutcome.panicked unwrap_none_msg) :=
  fun _ => rfl

/-- C8: when the first decoded version has an empty dependency list, the
Dependencies handler performs no project lookups, prints the
no-dependencies message and returns the distinct `noDependencies` error. -/
theorem C8_empty_dependencies_distinct_error :
    ∀ (lookup : RStr → Except RStr ProjectResponse) (rest : List ProjectVersion),
      project_dependencies_after_decode lookup
          (Except.ok ({ dependencies := [] } :: rest))
        = ([], [("No dependencies found on this project's version").toList],
           DepOutcome.errored DepErr.noDependencies) :=
  fun _ _ => rfl

/-- A file listing as decoded by `get_download_link` (main.rs lines 85-89). -/
structure GameFiles where
  url : RStr
  filename : RStr

/-- A version entry as decoded by `get_download_link` (main.rs lines 79-83). -/
structure GameVersion where
  loaders : List RStr
  files : List GameFiles

/-- How the scan of `get_download_link` can end: a panic from
`files.first().unwrap()`, the `Err(NotFound)` result, or a found file. -/
inductive DlResult where
  | panicked : RStr → DlResult
  | notFound : DlResult
  | found : GameFiles → DlResult

/-- Embeds the scan loop of `get_download_link` (main.rs lines 232-237):
return the first file of the first version whose loader set contains the
requested loader (panicking when that version has no files), and
`Err(NotFound)` when no version matches. -/
def get_download_link (loader : RStr) : List GameVersion → DlResult
  | [] => DlResult.notFound
  | version :: rest =>
      if loader ∈ version.loaders then
        match version.files with
        | [] => DlResult.panicked unwrap_none_msg
        | f :: _ => DlResult.found f
      else get_download_link loader rest

/-- The errors `download_jar` can propagate (main.rs line 244: `bytes?`). -/
inductive DjErr where
  | transport : RStr → DjErr

/-- Embeds `download_jar` (main.rs lines 240-254) with the HTTP status, the
body bytes, the detected mods directory and the `fs::write` behaviour as
inputs.  On success the bytes are written — the `fs::write` result is bound
to `_` and discarded — to the mods directory when detected and requested,
otherwise to the bare filename; on non-success status a message is printed
and nothing is written.  Result: (printed lines, paths written, returned
result). -/
def download_jar (game_files : GameFiles) (status_success : Bool)
    (bytes : Except RStr (List Nat)) (mods_dir : RStr) (mcdir : Bool)
    (fs_write : RStr → Except RStr Unit) :
    List RStr × List RStr × Except DjErr Unit :=
  let line0 := ("Downloading ").toList ++ game_files.filename
      ++ (" from ").toList ++ game_files.url
  if status_success then
    match bytes with
    | Except.error e => ([line0], [], Except.error (DjErr.transport e))
    | Except.ok _ =>
        if !mods_dir.isEmpty && mcdir then
          let path := mods_dir ++ ('/' :: game_files.filename)
          let _ := fs_write path
          ([line0], [path], Except.ok ())
        else
          let _ := fs_write game_files.filename
          ([line0], [game_files.filename], Except.ok ())
  else
    ([line0, ("Couldn't get file from ").toList ++ game_files.url],
     [], Except.ok ())

/-- C5: `get_download_link` selects the first file of the first version
whose loader set contains the requested loader — first-match even when a
later entry also matches — and returns the distinct `notFound` result when
no version's loader set contains the loader. -/
theorem C5_download_first_match :
    (∀ (loader : RStr) (pre rest : List GameVersion) (v : GameVersion)
        (f : GameFiles) (fs : List GameFiles),
        (∀ u ∈ pre, loader ∉ u.loaders) → loader ∈ v.loaders →
        v.files = f :: fs →
        get_download_link loader (pre ++ v :: rest) = DlResult.found f)
    ∧ (∀ (loader : RStr) (vs : List GameVersion),
        (∀ u ∈ vs, loader ∉ u.loaders) →
        get_download_link loader vs = DlResult.notFound) := by
  constructor
  · intro loader pre rest v f fs hpre hv hf
    induction pre with
    | nil =>
        simp only [List.nil_append, get_download_link, if_pos hv, hf]
    | cons u pre ih =>
        have hu : loader ∉ u.loaders := hpre u (by simp)
        have hpre' : ∀ x ∈ pre, loader ∉ x.loaders :=
          fun x hx => hpre x (by simp [hx])
        simp only [List.cons_append, get_download_link, if_neg hu]
        exact ih hpre'
  · intro loader vs h
    induction vs with
    | nil => rfl
    | cons u vs ih =>
        have hu : loader ∉ u.loaders := h u (by simp)
        have h' : ∀ x ∈ vs, loader ∉ x.loaders := fun x hx => h x (by simp [hx])
        simp only [get_download_link, if_neg hu]
        exact ih h'

/-- Concrete first file listing for the C5 witness. -/
def wFile1 : GameFiles := { url := ("u1").toList, filename := ("a.jar").toList }

/-- Concrete second file listing for the C5 witness. -/
def wFile2 : GameFiles := { url := ("u2").toList, filename := ("b.jar").toList }

/-- Witness for C5: with two versions that both contain the requested
loader, the first one's first file is selected. -/
theorem C5_download_first_match_witness :
    get_download_link (("fabric").toList)
        [{ loaders := [("fabric").toList], files := [wFile1] },
         { loaders := [("fabric").toList], files := [wFile2] }]
      = DlResult.found wFile1 :=
  C5_download_first_match.1 (("fabric").toList) []
    [{ loaders := [("fabric").toList], files := [wFile2] }]
    { loaders := [("fabric").toList], files := [wFile1] } wFile1 []
    (by simp) (by simp) rfl

/-- C6: on a non-success HTTP status `download_jar` writes no file, prints
the download-failure message, and returns without touching the
filesystem. -/
theorem C6_bad_status_writes_nothing :
    ∀ (gf : GameFiles) (bytes : Except RStr (List Nat)) (mods_dir : RStr)
      (mcdir : Bool) (fsw : RStr → Except RStr Unit),
      download_jar gf false bytes mods_dir mcdir fsw
        = ([("Downloading ").toList ++ gf.filename ++ (" from ").toList ++ gf.url,
            ("Couldn't get file from ").toList ++ gf.url],
           [], Except.ok ()) :=
  fun _ _ _ _ _ => rfl

/-- C7: the `fs::write` result is bound to `_` and discarded — at an input
where the write fails with a permission error, `download_jar` still returns
`Ok(())`, so the write failure is not propagated. -/
theorem C7_write_failure_not_propagated :
    (download_jar { url := ("u").toList, filename := ("m.jar").toList } true
        (Except.ok [0]) [] false
        (fun _ => Except.error (("permission denied").toList))).2.2
      = Except.ok () := rfl

/-- The CLI subcommands (main.rs lines 13-45); the search categories are an
`Option` since the flag may be omitted. -/
inductive CliCommand where
  | search : RStr → RStr → Option (List RStr) → CliCommand
  | download : RStr → RStr → RStr → Bool → CliCommand
  | info : RStr → CliCommand
  | dependencies : RStr → RStr → RStr → CliCommand

/-- The handler behaviours `main` dispatches to, abstracted as oracles. -/
structure Handlers where
  searchRun : RStr → RStr → List RStr → Except RStr Unit
  getDownload : RStr → RStr → RStr → Except RStr GameFiles
  downloadRun : GameFiles → Bool → Except RStr Unit
  infoRun : RStr → Except RStr Unit
  depsRun : RStr → RStr → RStr → Except RStr Unit

/-- How a `main` invocation can end: a panic, or a returned process result. -/
inductive MainOut where
  | panicked : RStr → MainOut
  | returned : Except RStr Unit → MainOut

/-- Embeds the dispatch of `main` (main.rs lines 98-122): the Search arm
`unwrap`s the optional categories (panicking when the flag was omitted),
the Download arm `unwrap`s the `get_download_link` result, the Dependencies
arm discards its handler's result, and the whole `match` value is bound to
`let _ =` before `main` ends with `Ok(())`. -/
def main_run (h : Handlers) (cmd : Option CliCommand) : MainOut :=
  match cmd with
  | some (CliCommand.search q gv cats) =>
      match cats with
      | none => MainOut.panicked unwrap_none_msg
      | some cs =>
          let _ := h.searchRun q gv cs
          MainOut.returned (Except.ok ())
  | some (CliCommand.download p gv loader mc) =>
      match h.getDownload p loader gv with
      | Except.error _ => MainOut.panicked unwrap_err_msg
      | Except.ok gf =>
          let _ := h.downloadRun gf mc
          MainOut.returned (Except.ok ())
  | some (CliCommand.info p) =>
      let _ := h.infoRun p
      MainOut.returned (Except.ok ())
  | some (CliCommand.dependencies p gv loader) =>
      let _ := h.depsRun p loader gv
      MainOut.returned (Except.ok ())
  | none => MainOut.returned (Except.ok ())

/-- C9: omitting the categories flag makes the Search arm of `main` panic
on `categories.as_ref().unwrap()` before any request is issued, whatever
the handlers would do. -/
theorem C9_omitted_categories_panic :
    ∀ (h : Handlers) (q gv : RStr),
      main_run h (some (CliCommand.search q gv none))
        = MainOut.panicked unwrap_none_msg :=
  fun _ _ _ => rfl

/-- C10: whenever `main` runs to completion without panicking, the returned
result is `Ok(())` — every handler result is discarded, so no handler error
reaches the process exit status. -/
theorem C10_main_discards_handler_results :
    ∀ (h : Handlers) (cmd : Option CliCommand) (r : Except RStr Unit),
      main_run h cmd = MainOut.returned r → r = Except.ok () := by
  intro h cmd r hr
  cases cmd with
  | none =>
      simp only [main_run] at hr
      exact (MainOut.returned.injEq _ _).mp hr |>.symm
  | some c =>
      cases c with
      | search q gv cats =>
          cases cats with
          | none =>
              simp only [main_run] at hr
              exact MainOut.noConfusion hr
          | some cs =>
              simp only [main_run] at hr
              exact ((MainOut.returned.injEq _ _).mp hr).symm
      | download p gv loader mc =>
          cases hgf : h.getDownload p loader gv with
          | error e =>
              simp only [main_run, hgf] at hr
              exact MainOut.noConfusion hr
          | ok gf =>
              simp only [main_run, hgf] at hr
              exact ((MainOut.returned.injEq _ _).mp hr).symm
      | info p =>
          simp only [main_run] at hr
          exact ((MainOut.returned.injEq _ _).mp hr).symm
      | dependencies p gv loader =>
          simp only [main_run] at hr
          exact ((MainOut.returned.injEq _ _).mp hr).symm

/-- Handlers that all fail, for the C10 witness. -/
def errHandlers : Handlers where
  searchRun := fun _ _ _ => Except.error (("e").toList)
  getDownload := fun _ _ _ => Except.error (("e").toList)
  downloadRun := fun _ _ => Except.error (("e").toList)
  infoRun := fun _ => Except.error (("e").toList)
  depsRun := fun _ _ _ => Except.error (("e").toList)

/-- Witness for C10: with an Info handler that errors, `main` still returns
`Ok(())`. -/
theorem C10_main_discards_handler_results_witness :
    main_run errHandlers (some (CliCommand.info ['x']))
        = MainOut.returned (Except.ok ())
    ∧ (Except.ok () : Except RStr Unit) = Except.ok () :=
  ⟨rfl, C10_main_discards_handler_results errHandlers
      (some (CliCommand.info ['x'])) (Except.ok ()) rfl⟩

end Rustdrynth

